import Mathlib

/-!
Shallow embedding of `fhirkit/ValueSet.py` (repository `axelv/tiro-fhir`).

Python in-place mutation is modelled by explicit state passing: an operation
takes a `ValueSet` and returns `Except PyError ValueSet`; an `.error` result
models a raised Python exception, in which case the observable state is the
pre-call value.  Machine integers do not occur (Python ints are unbounded and
the program only counts list elements), so counts are `Int`/`Nat` directly.

The classes `Coding` and `CodeableConcept` live in `fhirkit/elements`, a
module that is not part of the sources; they are modelled from the spec where
indicated.  Fields that no claim touches and that carry wall-clock time
(`VSExpansion.timestamp`) or rendered HTML (`ValueSet.text`) are omitted.
-/

set_option autoImplicit false

namespace FhirKit

/-- Modelled from the spec: `fhirkit.elements.Coding` is not under the given
sources (only `elements/Timing.py` is).  Spec section 3 describes the coded
concept as `{system: URI, code: string, display?: string, ...}` plus a
`version` used by the enumerated constructor. -/
structure Coding where
  system : String
  code : String
  display : Option String := none
  version : Option String := none
deriving DecidableEq, Repr

/-- Modelled from the spec: equality of codings.  Spec section 3: "Equality is
defined as `(system, code)` equality; `display` and `designations` are not
part of identity."  (The Python `__eq__` of `Coding` is in the missing
`fhirkit/elements` module.) -/
def Coding.eq (a b : Coding) : Bool :=
  a.system == b.system && a.code == b.code

/-- `VSDesignation` (ValueSet.py lines 21-24). -/
structure VSDesignation where
  language : Option String := none
  use : Option Coding := none
  value : String
deriving DecidableEq, Repr

/-- `VSConcept` (ValueSet.py lines 27-30). -/
structure VSConcept where
  code : String
  display : Option String := none
  designation : List VSDesignation := []
deriving DecidableEq, Repr

/-- The operator vocabulary of `VSFilter.op` (ValueSet.py lines 35-47). -/
inductive VSFilterOp where
  | eqOp | isA | descendentOf | isNotA | regex | inOp | notInOp
  | generalizes | childOf | descendentLeaf | existsOp
deriving DecidableEq, Repr

/-- `VSFilter` (ValueSet.py lines 33-48). -/
structure VSFilter where
  property : String
  op : VSFilterOp
  value : String
deriving DecidableEq, Repr

/-- `VSInclude` (ValueSet.py lines 51-56). -/
structure VSInclude where
  system : Option String := none
  version : Option String := none
  concept : List VSConcept := []
  filter : List VSFilter := []
  valueSet : List String := []
deriving DecidableEq, Repr

/-- `VSCompose` (ValueSet.py lines 59-64). -/
structure VSCompose where
  «include» : List VSInclude
  exclude : List VSInclude := []
  property : List String := []
  lockedDate : Option String := none
  inactive : Option Bool := none
deriving DecidableEq, Repr

/-- `VSCodingWithDesignation` (ValueSet.py lines 67-68): a `Coding` carrying
designations. -/
structure VSCodingWithDesignation extends Coding where
  designation : List VSDesignation := []
deriving DecidableEq, Repr

/-- Coercion applied by the validation framework when a
`VSCodingWithDesignation` is stored in `VSInclude.concept` (whose element
type is `VSConcept`): the fields of `VSConcept` are kept, the rest dropped. -/
def VSCodingWithDesignation.toVSConcept (c : VSCodingWithDesignation) : VSConcept :=
  { code := c.code, display := c.display, designation := c.designation }

/-- `VSExpansion` (ValueSet.py lines 71-76); `timestamp` (wall clock) omitted. -/
structure VSExpansion where
  offset : Option Int := none
  total : Option Int := none
  contains : List VSCodingWithDesignation := []
  identifier : Option String := none
deriving DecidableEq, Repr

/-- Modelled from the spec: `CodeableConcept` (in the missing
`fhirkit/elements` module) is "a bundle of one or more alternative codings
representing the same real-world concept, plus optional free text". -/
structure CodeableConcept where
  text : Option String := none
  coding : List Coding := []
deriving DecidableEq, Repr

/-- Python exceptions raised by the embedded operations. -/
inductive PyError where
  /-- A failed `assert` statement with its message. -/
  | AssertionError : String → PyError
  /-- Attribute access on `None` (e.g. `self.compose.include` when
  `compose is None`). -/
  | AttributeError : PyError
  /-- Unpacking `first_code, *_ = iter(codes)` of an empty iterable. -/
  | ValueError : PyError
  /-- `raise UserWarning(msg)`. -/
  | UserWarning : String → PyError
  /-- `raise NotImplementedError()`. -/
  | NotImplementedError : PyError
deriving DecidableEq, Repr

/-- Message of the assertions at ValueSet.py lines 96-98 and 112-114. -/
def expansionAbsentMsg : String :=
  "ValueSet has no expansion even after running self.expand()."

/-- Message of the assertions at ValueSet.py lines 152-154 and 171-173. -/
def initAssertMsg : String :=
  "self.expansion is None after initialisation with self.init_expansion"

/-- `ValueSet` (ValueSet.py lines 79-85): the resource-level metadata fields
are opaque pass-through strings; `useContext` and narrative are omitted. -/
structure ValueSet where
  url : Option String := none
  name : Option String := none
  compose : Option VSCompose := none
  expansion : Option VSExpansion := none
deriving DecidableEq, Repr

namespace ValueSet

/-- `ValueSet.has_expanded` (lines 106-108): `self.expansion is not None`. -/
def has_expanded (vs : ValueSet) : Bool :=
  vs.expansion.isSome

/-- `ValueSet._expand` (lines 110-114).  Despite its docstring ("Private
wrapper method for `self.expand`") the body consists solely of
`assert self.has_expanded, ...`: it never invokes `self.expand()` and never
changes state. -/
def expandPriv (vs : ValueSet) : Except PyError Unit :=
  if vs.has_expanded then Except.ok ()
  else Except.error (PyError.AssertionError expansionAbsentMsg)

/-- The `return` expression of `__len__` (line 99):
`self.expansion.total or len(self.expansion.contains)` — a falsy `total`
(`None` or `0`) falls back to the length of `contains`. -/
def lenOfExpansion (e : VSExpansion) : Int :=
  match e.total with
  | some t => if t == 0 then (e.contains.length : Int) else t
  | none => (e.contains.length : Int)

/-- `ValueSet.__len__` (lines 93-99): when no expansion exists it calls
`self._expand()` — which only asserts, so the call raises `AssertionError`;
otherwise it returns `expansion.total or len(expansion.contains)`. -/
def length (vs : ValueSet) : Except PyError Int := do
  if !vs.has_expanded then
    expandPriv vs
  match vs.expansion with
  | none => Except.error (PyError.AssertionError expansionAbsentMsg)
  | some e => Except.ok (lenOfExpansion e)

/-- `ValueSet.__iter__` (lines 87-91): when no expansion exists it calls
`self._expand()` (which raises); otherwise it yields the elements of
`expansion.contains` in order. -/
def iterList (vs : ValueSet) : Except PyError (List VSCodingWithDesignation) := do
  if !vs.has_expanded then
    expandPriv vs
  match vs.expansion with
  | none => Except.error (PyError.AssertionError expansionAbsentMsg)
  | some e => Except.ok e.contains

/-- `ValueSet.init_expansion` (lines 137-138): `self.expansion = VSExpansion()`. -/
def init_expansion (vs : ValueSet) : ValueSet :=
  { vs with expansion := some {} }

/-- `ValueSet.append` (lines 140-155).  Python defaults:
`extend_compose=True`, `init_expansion_if_none=True`. -/
def append (vs : ValueSet) (code : VSCodingWithDesignation)
    (extend_compose : Bool) (init_expansion_if_none : Bool) :
    Except PyError ValueSet := do
  let vs1 ←
    if extend_compose then
      match vs.compose with
      | none => Except.error PyError.AttributeError
      | some comp =>
        Except.ok { vs with compose := some { comp with
          «include» := comp.«include» ++
            [{ system := some code.system, concept := [code.toVSConcept] }] } }
    else Except.ok vs
  let vs2 :=
    if !vs1.has_expanded && init_expansion_if_none then vs1.init_expansion else vs1
  match vs2.expansion with
  | none => Except.error (PyError.AssertionError initAssertMsg)
  | some e =>
    Except.ok { vs2 with expansion := some { e with contains := e.contains ++ [code] } }

/-- `ValueSet.extend` (lines 157-174).  Python defaults:
`extend_compose=True`, `init_expansion_if_none=True`.  Two peculiarities are
kept exactly as in the source: `first_code, *_ = iter(codes)` raises
`ValueError` on an empty batch before `self.compose` is touched, and line 169
tests `if self.has_expanded and init_expansion_if_none` (not `not
self.has_expanded`, as `append` line 149 does), so an existing expansion is
re-initialised and a missing one is never created. -/
def extend (vs : ValueSet) (codes : List VSCodingWithDesignation)
    (extend_compose : Bool) (init_expansion_if_none : Bool) :
    Except PyError ValueSet := do
  let vs1 ←
    if extend_compose then
      match codes with
      | [] => Except.error PyError.ValueError
      | first :: _ =>
        match vs.compose with
        | none => Except.error PyError.AttributeError
        | some comp =>
          Except.ok { vs with compose := some { comp with
            «include» := comp.«include» ++
              [{ system := some first.system,
                 concept := codes.map VSCodingWithDesignation.toVSConcept }] } }
    else Except.ok vs
  let vs2 :=
    if vs1.has_expanded && init_expansion_if_none then vs1.init_expansion else vs1
  match vs2.expansion with
  | none => Except.error (PyError.AssertionError initAssertMsg)
  | some e =>
    Except.ok { vs2 with expansion := some { e with contains := e.contains ++ codes } }

/-- `ValueSet.expand` in the abstract base (lines 116-132):
`raise NotImplementedError()`. -/
def expandBase (_ : ValueSet) : Except PyError ValueSet :=
  Except.error PyError.NotImplementedError

end ValueSet

/-- An argument of `__contains__` / `validate_code`: a `Coding`, a
`CodeableConcept`, or a value of any other type (which the `isinstance`
check at line 102 rejects). -/
inductive VSItem where
  | coding : Coding → VSItem
  | codeable : CodeableConcept → VSItem
  | other : VSItem
deriving DecidableEq, Repr

/-- `ValueSet.__contains__` (lines 101-104), parameterised by the variant's
`validate_code` method: a non-`Coding`, non-`CodeableConcept` item yields
`False` without any call; otherwise the result is exactly
`self.validate_code(item)`. -/
def ValueSet.containsItem (validate : VSItem → Except PyError Bool)
    (item : VSItem) : Except PyError Bool :=
  match item with
  | VSItem.other => Except.ok false
  | it => validate it

namespace SimpleValueSet

/-- `SimpleValueSet.__init__` (lines 180-230) for calls that pass no
`expansion` keyword (the constructor asserts it is absent when concepts are
given): a non-empty concept list populates the expansion directly with
`contains = [c for c in args]` and `total = len(args)`; an empty argument
list leaves the expansion absent.  No composition is created in either
branch; `compose` is the keyword pass-through (absent by default).  The
generated `Narrative` text is omitted. -/
def ofConcepts (args : List VSCodingWithDesignation)
    (compose : Option VSCompose) : ValueSet :=
  if args.length > 0 then
    { compose := compose,
      expansion := some { total := some (args.length : Int), contains := args } }
  else
    { compose := compose }

/-- Message of the `UserWarning` raised by `SimpleValueSet.expand`
(lines 232-235); apostrophes elided. -/
def redundantExpansionMsg : String :=
  "SimpleValueSet is already expanded at construction time."

/-- `SimpleValueSet.expand` (lines 232-235): `raise UserWarning(...)`.  The
raise happens unconditionally, before any mutation. -/
def expand (_ : ValueSet) : Except PyError ValueSet :=
  Except.error (PyError.UserWarning redundantExpansionMsg)

/-- The `Coding` branch of `SimpleValueSet.validate_code` (lines 240-241):
`any(c == code for c in self)` — iterating `self` goes through `__iter__`,
so an absent expansion raises before any comparison; equality is the
spec-modelled `(system, code)` identity. -/
def validateCoding (vs : ValueSet) (code : Coding) : Except PyError Bool := do
  let xs ← vs.iterList
  Except.ok (xs.any fun c => Coding.eq c.toCoding code)

/-- The `CodeableConcept` branch of `SimpleValueSet.validate_code`
(lines 238-239): `any(c in self for c in code.coding)`, short-circuiting; the
inner `c in self` dispatches through `__contains__` back to the `Coding`
branch. -/
def anyCodingMember (vs : ValueSet) : List Coding → Except PyError Bool
  | [] => Except.ok false
  | c :: rest => do
    if (← validateCoding vs c) then Except.ok true else anyCodingMember vs rest

/-- `SimpleValueSet.validate_code` (lines 237-243). -/
def validate_code (vs : ValueSet) : VSItem → Except PyError Bool
  | VSItem.codeable cc => anyCodingMember vs cc.coding
  | VSItem.coding c => validateCoding vs c
  | VSItem.other => Except.ok false

/-- Membership test `item in vs` for a `SimpleValueSet`: `__contains__`
dispatching to `SimpleValueSet.validate_code`. -/
def mem (vs : ValueSet) (item : VSItem) : Except PyError Bool :=
  ValueSet.containsItem (validate_code vs) item

end SimpleValueSet

/-- A value set together with the `expand` method its dynamic class supplies
(the polymorphic hook of spec section 4.2); used to express which operations
do, and which do not, consult that method. -/
structure VSObject where
  state : ValueSet
  expandImpl : ValueSet → Except PyError ValueSet

/-- `__len__` (lines 93-99) on an object with a dynamic `expand` method: the
branch for a missing expansion calls `self._expand()`, which only asserts —
`expandImpl` is never consulted. -/
def VSObject.length (o : VSObject) : Except PyError Int := do
  if !o.state.has_expanded then
    o.state.expandPriv
  match o.state.expansion with
  | none => Except.error (PyError.AssertionError expansionAbsentMsg)
  | some e => Except.ok (ValueSet.lenOfExpansion e)

/-- Concrete codings used by concrete-input theorems (spec section 8 uses
`system="http://x"`, codes `A`/`B`). -/
def cA : VSCodingWithDesignation := { system := "http://x", code := "A" }

/-- A second concrete coding, same system as `cA`, code `B`. -/
def cB : VSCodingWithDesignation := { system := "http://x", code := "B" }

/-- A third concrete coding with a different system. -/
def cY : VSCodingWithDesignation := { system := "http://y", code := "A" }

end FhirKit

/-! ## Shared helper lemmas -/

/-- Reflexivity of the spec-modelled coding identity. -/
theorem Coding.eq_self (a : FhirKit.Coding) : FhirKit.Coding.eq a a = true := by
  simp [FhirKit.Coding.eq]

/-- Unfolding of `__iter__` by the shape of `expansion`. -/
theorem FhirKit.ValueSet.iterList_eq (vs : FhirKit.ValueSet) :
    vs.iterList = match vs.expansion with
      | some e => Except.ok e.contains
      | none => Except.error (FhirKit.PyError.AssertionError FhirKit.expansionAbsentMsg) := by
  obtain ⟨u, n, c, e⟩ := vs
  cases e <;> rfl

/-- Unfolding of `__len__` by the shape of `expansion`. -/
theorem FhirKit.ValueSet.length_eq (vs : FhirKit.ValueSet) :
    vs.length = match vs.expansion with
      | some e => Except.ok (FhirKit.ValueSet.lenOfExpansion e)
      | none => Except.error (FhirKit.PyError.AssertionError FhirKit.expansionAbsentMsg) := by
  obtain ⟨u, n, c, e⟩ := vs
  cases e <;> rfl

namespace FhirKit

/-- The enumerated constructor applied to a non-empty concept list. -/
theorem SimpleValueSet.ofConcepts_pos (args : List VSCodingWithDesignation)
    (compose : Option VSCompose) (h : args ≠ []) :
    SimpleValueSet.ofConcepts args compose =
      { compose := compose,
        expansion := some { total := some (args.length : Int), contains := args } } := by
  have hpos : 0 < args.length := List.length_pos.mpr h
  unfold SimpleValueSet.ofConcepts
  rw [if_pos hpos]

/-- A list length cast to `Int` is `== 0` exactly for the empty list. -/
theorem length_intCast_beq_zero {α : Type} (l : List α) (h : l ≠ []) :
    ((l.length : Int) == 0) = false := by
  have hpos : 0 < l.length := List.length_pos.mpr h
  simp only [beq_eq_false_iff_ne, ne_eq, Int.natCast_eq_zero]
  omega

end FhirKit

/-! ## Claim theorems -/

/-- C1 (code bug): `extend` at ValueSet.py line 169 tests
`if self.has_expanded and init_expansion_if_none` — the inversion of the
corresponding `append` guard (line 149).  With default flags, on a value set
whose expansion already holds `cA`, `extend([cB])` re-initialises the
expansion and ends with `contains = [cB]`: the pre-existing concept is lost
instead of preserved.  On a value set with no expansion, `extend([cB])`
never initialises one and dies on the `assert` (the claimed
initialize-then-append never happens).  The composition part of the claim
(one include rule scoped to the first concept's system) is the only part the
code honours. -/
theorem FhirKit.extend_wipes_expansion_and_fails_init :
    FhirKit.ValueSet.extend
        { compose := some { «include» := [] },
          expansion := some { contains := [FhirKit.cA] } } [FhirKit.cB] true true
      = Except.ok
        { compose := some { «include» :=
            [{ system := some "http://x", concept := [FhirKit.cB.toVSConcept] }] },
          expansion := some { contains := [FhirKit.cB] } }
    ∧ FhirKit.ValueSet.extend
        { compose := some { «include» := [] } } [FhirKit.cB] true true
      = Except.error (FhirKit.PyError.AssertionError FhirKit.initAssertMsg) :=
  ⟨rfl, rfl⟩

/-- The concrete object for C2: a value set with no expansion whose dynamic
`expand` method would succeed and populate the expansion. -/
def FhirKit.c2Obj : FhirKit.VSObject :=
  { state := {},
    expandImpl := fun vs =>
      Except.ok { vs with expansion := some { contains := [FhirKit.cA] } } }

/-- C2 (code bug): `__len__` never invokes the variant's `expand()`.  The
private `_expand` (lines 110-114), documented as a "wrapper method for
`self.expand`", only asserts, so on an unexpanded value set `len()` raises
`AssertionError` (the spec's `ExpansionInvariantViolated`) even though the
object's `expand` implementation would have produced an expansion. -/
theorem FhirKit.length_never_invokes_expand :
    FhirKit.VSObject.length FhirKit.c2Obj
      = Except.error (FhirKit.PyError.AssertionError FhirKit.expansionAbsentMsg)
    ∧ FhirKit.c2Obj.expandImpl FhirKit.c2Obj.state
      = Except.ok { expansion := some { contains := [FhirKit.cA] } }
    ∧ FhirKit.ValueSet.has_expanded { expansion := some { contains := [FhirKit.cA] } } = true :=
  ⟨rfl, rfl, rfl⟩

/-- The value set of the C3 counterexample after the append: the include rule
is added and `cB` lands in `contains`, but `total` still reads `1`. -/
def FhirKit.c3After : FhirKit.ValueSet :=
  { compose := some { «include» :=
      [{ system := some "http://x", concept := [FhirKit.cB.toVSConcept] }] },
    expansion := some { total := some 1, contains := [FhirKit.cA, FhirKit.cB] } }

/-- C3 (counterexample): on the enumerated value set built from `[cA]` (with a
composition present so the default-flag `append` succeeds), `append cB`
returns successfully and `cB` is stored, yet `len` stays `1`: the constructor
set `expansion.total = 1` and `append` never updates `total`, while `__len__`
prefers a non-zero `total` over `len(contains)`.  The claim's "increases
`len(V)` by exactly 1" is false here. -/
theorem FhirKit.append_leaves_length_unchanged :
    (FhirKit.SimpleValueSet.ofConcepts [FhirKit.cA] (some { «include» := [] })).length
      = Except.ok 1
    ∧ (FhirKit.SimpleValueSet.ofConcepts [FhirKit.cA] (some { «include» := [] })).append
        FhirKit.cB true true
      = Except.ok FhirKit.c3After
    ∧ FhirKit.c3After.length = Except.ok 1
    ∧ FhirKit.c3After.expansion
      = some { total := some 1, contains := [FhirKit.cA, FhirKit.cB] } :=
  ⟨rfl, rfl, rfl, rfl⟩

/-- C3 (amended): on an enumerated value set built from a non-empty concept
list, `append c` (default flags, composition present) succeeds, appends `c`
to `expansion.contains`, and makes `c in V` true afterward — but `len(V)` is
unchanged (it keeps returning the `total` fixed at construction), rather than
increasing by exactly 1 as claimed. -/
theorem FhirKit.append_membership_but_length_fixed
    (args : List FhirKit.VSCodingWithDesignation) (cmp : FhirKit.VSCompose)
    (c : FhirKit.VSCodingWithDesignation) (h : args ≠ []) :
    ∃ after,
      (FhirKit.SimpleValueSet.ofConcepts args (some cmp)).append c true true
        = Except.ok after
      ∧ FhirKit.SimpleValueSet.mem after (FhirKit.VSItem.coding c.toCoding)
        = Except.ok true
      ∧ after.expansion
        = some { total := some (args.length : Int), contains := args ++ [c] }
      ∧ after.length = Except.ok (args.length : Int)
      ∧ (FhirKit.SimpleValueSet.ofConcepts args (some cmp)).length
        = Except.ok (args.length : Int) := by
  rw [FhirKit.SimpleValueSet.ofConcepts_pos args (some cmp) h]
  refine ⟨{ compose := some { cmp with «include» := cmp.«include» ++
              [{ system := some c.system, concept := [c.toVSConcept] }] },
            expansion := some { total := some (args.length : Int),
                                contains := args ++ [c] } }, rfl, ?_, rfl, ?_, ?_⟩
  · simp [FhirKit.SimpleValueSet.mem, FhirKit.ValueSet.containsItem,
      FhirKit.SimpleValueSet.validate_code, FhirKit.SimpleValueSet.validateCoding,
      FhirKit.ValueSet.iterList_eq, Bind.bind, Except.bind, List.any_append,
      Coding.eq_self]
  · rw [FhirKit.ValueSet.length_eq]
    simp [FhirKit.ValueSet.lenOfExpansion, FhirKit.length_intCast_beq_zero args h]
  · rw [FhirKit.ValueSet.length_eq]
    simp [FhirKit.ValueSet.lenOfExpansion, FhirKit.length_intCast_beq_zero args h]

/-- C3 (witness): the amended theorem applied at `args = [cA]`, an empty
composition and `c = cB`. -/
theorem FhirKit.append_membership_but_length_fixed_witness :
    ([FhirKit.cA] : List FhirKit.VSCodingWithDesignation) ≠ []
    ∧ ∃ after,
      (FhirKit.SimpleValueSet.ofConcepts [FhirKit.cA] (some { «include» := [] })).append
          FhirKit.cB true true
        = Except.ok after
      ∧ FhirKit.SimpleValueSet.mem after (FhirKit.VSItem.coding FhirKit.cB.toCoding)
        = Except.ok true
      ∧ after.expansion
        = some { total := some (([FhirKit.cA] : List FhirKit.VSCodingWithDesignation).length : Int),
                 contains := [FhirKit.cA] ++ [FhirKit.cB] }
      ∧ after.length
        = Except.ok (([FhirKit.cA] : List FhirKit.VSCodingWithDesignation).length : Int)
      ∧ (FhirKit.SimpleValueSet.ofConcepts [FhirKit.cA] (some { «include» := [] })).length
        = Except.ok (([FhirKit.cA] : List FhirKit.VSCodingWithDesignation).length : Int) :=
  ⟨List.cons_ne_nil _ _,
   FhirKit.append_membership_but_length_fixed [FhirKit.cA] { «include» := [] }
     FhirKit.cB (List.cons_ne_nil _ _)⟩

/-- Membership of a single coding in a value set with an expansion, for the
enumerated variant: a linear scan of `expansion.contains` under the
spec-modelled `(system, code)` identity. -/
theorem FhirKit.SimpleValueSet.mem_coding (vs : FhirKit.ValueSet)
    (e : FhirKit.VSExpansion) (h : vs.expansion = some e) (d : FhirKit.Coding) :
    FhirKit.SimpleValueSet.mem vs (FhirKit.VSItem.coding d)
      = Except.ok (e.contains.any fun x => FhirKit.Coding.eq x.toCoding d) := by
  simp [FhirKit.SimpleValueSet.mem, FhirKit.ValueSet.containsItem,
    FhirKit.SimpleValueSet.validate_code, FhirKit.SimpleValueSet.validateCoding,
    FhirKit.ValueSet.iterList_eq, h, Bind.bind, Except.bind]

/-- C4 (counterexample): the enumerated constructor applied to the empty
concept list leaves `expansion` absent (the `len(args) > 0` branch is
skipped), so `len(V)` raises `AssertionError` instead of returning
`len(C) = 0`: the claim fails for `C = []`. -/
theorem FhirKit.enumerated_empty_list_length_raises :
    (FhirKit.SimpleValueSet.ofConcepts [] none).length
      = Except.error (FhirKit.PyError.AssertionError FhirKit.expansionAbsentMsg)
    ∧ (FhirKit.SimpleValueSet.ofConcepts [] none).length ≠ Except.ok 0 :=
  ⟨rfl, fun h => Except.noConfusion h⟩

/-- C4 (amended): for every enumerated value set built from a NON-empty
duplicate-free concept list `C`: `len(V) = len(C)`; every `c ∈ C` is a
member; every coding whose `(system, code)` pair differs from all elements
of `C` is not a member; and membership ignores `display`, `version` and
designations (identity is the spec-modelled `(system, code)` equality — the
`Coding` class itself is outside the given sources).  Built from the empty
list no expansion is created, and `len`/membership raise instead. -/
theorem FhirKit.enumerated_membership_by_system_code
    (C : List FhirKit.VSCodingWithDesignation) (hne : C ≠ [])
    (_hnd : C.Pairwise
      (fun a b => FhirKit.Coding.eq a.toCoding b.toCoding = false)) :
    (FhirKit.SimpleValueSet.ofConcepts C none).length = Except.ok (C.length : Int)
    ∧ (∀ c ∈ C,
        FhirKit.SimpleValueSet.mem (FhirKit.SimpleValueSet.ofConcepts C none)
          (FhirKit.VSItem.coding c.toCoding) = Except.ok true)
    ∧ (∀ d : FhirKit.Coding,
        (∀ c ∈ C, FhirKit.Coding.eq c.toCoding d = false) →
        FhirKit.SimpleValueSet.mem (FhirKit.SimpleValueSet.ofConcepts C none)
          (FhirKit.VSItem.coding d) = Except.ok false)
    ∧ (∀ c ∈ C, ∀ disp vers : Option String,
        FhirKit.SimpleValueSet.mem (FhirKit.SimpleValueSet.ofConcepts C none)
          (FhirKit.VSItem.coding
            { system := c.system, code := c.code, display := disp, version := vers })
          = Except.ok true) := by
  rw [FhirKit.SimpleValueSet.ofConcepts_pos C none hne]
  refine ⟨?_, ?_, ?_, ?_⟩
  · rw [FhirKit.ValueSet.length_eq]
    simp [FhirKit.ValueSet.lenOfExpansion, FhirKit.length_intCast_beq_zero C hne]
  · intro c hc
    rw [FhirKit.SimpleValueSet.mem_coding _ _ rfl]
    have : C.any (fun x => FhirKit.Coding.eq x.toCoding c.toCoding) = true :=
      List.any_eq_true.mpr ⟨c, hc, Coding.eq_self _⟩
    rw [this]
  · intro d hd
    rw [FhirKit.SimpleValueSet.mem_coding _ _ rfl]
    have : C.any (fun x => FhirKit.Coding.eq x.toCoding d) = false :=
      List.any_eq_false.mpr (fun x hx => by simp [hd x hx])
    rw [this]
  · intro c hc disp vers
    rw [FhirKit.SimpleValueSet.mem_coding _ _ rfl]
    have : C.any (fun x => FhirKit.Coding.eq x.toCoding
        { system := c.system, code := c.code, display := disp, version := vers }) = true :=
      List.any_eq_true.mpr ⟨c, hc, by simp [FhirKit.Coding.eq]⟩
    rw [this]

/-- C4 (witness): the amended theorem applied at `C = [cA, cB]`, with the
differing coding `cY` (system `http://y`) and a display-carrying copy of
`cA`. -/
theorem FhirKit.enumerated_membership_by_system_code_witness :
    (([FhirKit.cA, FhirKit.cB] : List FhirKit.VSCodingWithDesignation) ≠ []
      ∧ ([FhirKit.cA, FhirKit.cB] : List FhirKit.VSCodingWithDesignation).Pairwise
          (fun a b => FhirKit.Coding.eq a.toCoding b.toCoding = false)
      ∧ (∀ c ∈ ([FhirKit.cA, FhirKit.cB] : List FhirKit.VSCodingWithDesignation),
          FhirKit.Coding.eq c.toCoding FhirKit.cY.toCoding = false))
    ∧ (FhirKit.SimpleValueSet.ofConcepts [FhirKit.cA, FhirKit.cB] none).length
        = Except.ok 2
    ∧ FhirKit.SimpleValueSet.mem
        (FhirKit.SimpleValueSet.ofConcepts [FhirKit.cA, FhirKit.cB] none)
        (FhirKit.VSItem.coding FhirKit.cA.toCoding) = Except.ok true
    ∧ FhirKit.SimpleValueSet.mem
        (FhirKit.SimpleValueSet.ofConcepts [FhirKit.cA, FhirKit.cB] none)
        (FhirKit.VSItem.coding FhirKit.cY.toCoding) = Except.ok false
    ∧ FhirKit.SimpleValueSet.mem
        (FhirKit.SimpleValueSet.ofConcepts [FhirKit.cA, FhirKit.cB] none)
        (FhirKit.VSItem.coding
          { system := FhirKit.cA.system, code := FhirKit.cA.code,
            display := some "Alpha", version := some "v2" }) = Except.ok true := by
  have h := FhirKit.enumerated_membership_by_system_code [FhirKit.cA, FhirKit.cB]
    (by decide) (by decide)
  exact ⟨⟨by decide, by decide, by decide⟩, h.1,
    h.2.1 FhirKit.cA (by decide),
    h.2.2.1 FhirKit.cY.toCoding (by decide),
    h.2.2.2 FhirKit.cA (by decide) (some "Alpha") (some "v2")⟩

/-- C5 (counterexample): `SimpleValueSet.__init__` with a non-empty concept
list creates no composition at all — `compose` stays absent (the constructor
only passes `expansion` and `text` to the base), so there is no include rule
for the source system `http://x` of `cA`, contrary to the claimed one rule
per distinct system. -/
theorem FhirKit.enumerated_ctor_creates_no_compose :
    (FhirKit.SimpleValueSet.ofConcepts [FhirKit.cA] none).compose = none
    ∧ (FhirKit.SimpleValueSet.ofConcepts [FhirKit.cA] none).expansion
      = some { total := some 1, contains := [FhirKit.cA] } :=
  ⟨rfl, rfl⟩

/-- C5 (amended): constructing an enumerated value set from a non-empty
concept list populates the expansion directly (`contains` is the given list
in order, `total` its length) but synthesizes no composition rules:
`compose` remains whatever was passed through (absent by default). -/
theorem FhirKit.enumerated_ctor_expansion_only
    (args : List FhirKit.VSCodingWithDesignation) (h : args ≠ []) :
    (FhirKit.SimpleValueSet.ofConcepts args none).expansion
      = some { total := some (args.length : Int), contains := args }
    ∧ (FhirKit.SimpleValueSet.ofConcepts args none).compose = none := by
  rw [FhirKit.SimpleValueSet.ofConcepts_pos args none h]
  exact ⟨rfl, rfl⟩

/-- C5 (witness): the amended theorem at `args = [cA]`. -/
theorem FhirKit.enumerated_ctor_expansion_only_witness :
    ([FhirKit.cA] : List FhirKit.VSCodingWithDesignation) ≠ []
    ∧ ((FhirKit.SimpleValueSet.ofConcepts [FhirKit.cA] none).expansion
        = some { total := some (([FhirKit.cA] : List FhirKit.VSCodingWithDesignation).length : Int),
                 contains := [FhirKit.cA] }
      ∧ (FhirKit.SimpleValueSet.ofConcepts [FhirKit.cA] none).compose = none) :=
  ⟨List.cons_ne_nil _ _,
   FhirKit.enumerated_ctor_expansion_only [FhirKit.cA] (List.cons_ne_nil _ _)⟩

/-- C6 (counterexample): `SimpleValueSet.expand` executes
`raise UserWarning(...)` — the call raises an exception that propagates to
the caller (the embedded operation yields `.error`, never `.ok`), so it is
not the claimed non-fatal, purely informational signal. -/
theorem FhirKit.enumerated_expand_raises :
    FhirKit.SimpleValueSet.expand (FhirKit.SimpleValueSet.ofConcepts [FhirKit.cA] none)
      = Except.error (FhirKit.PyError.UserWarning FhirKit.SimpleValueSet.redundantExpansionMsg)
    ∧ (FhirKit.SimpleValueSet.expand
        (FhirKit.SimpleValueSet.ofConcepts [FhirKit.cA] none)).isOk = false :=
  ⟨rfl, rfl⟩

/-- C6 (amended): calling `expand()` on an enumerated (SimpleValueSet) value
set raises a `UserWarning` exception (fatal to the call unless caught by the
caller); the raise happens before any mutation, so the value set — in
particular its expansion — is left unchanged. -/
theorem FhirKit.enumerated_expand_always_userwarning (vs : FhirKit.ValueSet) :
    FhirKit.SimpleValueSet.expand vs
      = Except.error (FhirKit.PyError.UserWarning FhirKit.SimpleValueSet.redundantExpansionMsg) :=
  rfl

/-- C7 (counterexample): `extend([])` with `extendComposition=false` and
`initExpansionIfAbsent=false` on an expanded value set raises nothing at all
and returns the value set unchanged — the `EmptyBatch` failure (the
`ValueError` from `first_code, *_ = iter(codes)`) exists only on the
`extendComposition=true` path, so the claim's "for every setting of the
flags" is false. -/
theorem FhirKit.extend_empty_no_error_without_compose_flag :
    FhirKit.ValueSet.extend { expansion := some { contains := [FhirKit.cA] } } [] false false
      = Except.ok { expansion := some { contains := [FhirKit.cA] } } :=
  rfl

/-- C7 (amended): `extend` with an empty batch raises the `EmptyBatch`
failure — the `ValueError` of unpacking `first_code, *_ = iter(codes)`,
before any mutation — whenever `extendComposition=true`, and never on the
`extendComposition=false` path.  There the outcome depends on the expansion:
on a value set WITH an expansion the empty call succeeds, leaving the set
unchanged when `initExpansionIfAbsent=false` and resetting the expansion to
a fresh empty one when `initExpansionIfAbsent=true` (line 169's inverted
guard); on a value set WITHOUT an expansion it raises `AssertionError` at
line 171 for either setting of `initExpansionIfAbsent`, since the inverted
guard never initialises a missing expansion. -/
theorem FhirKit.extend_empty_fails_only_with_compose
    (vs : FhirKit.ValueSet) (b : Bool) :
    FhirKit.ValueSet.extend vs [] true b = Except.error FhirKit.PyError.ValueError
    ∧ (∀ e : FhirKit.VSExpansion, vs.expansion = some e →
        FhirKit.ValueSet.extend vs [] false false = Except.ok vs
        ∧ FhirKit.ValueSet.extend vs [] false true
          = Except.ok { vs with expansion := some {} })
    ∧ (vs.expansion = none → ∀ b2 : Bool,
        FhirKit.ValueSet.extend vs [] false b2
          = Except.error (FhirKit.PyError.AssertionError FhirKit.initAssertMsg)) := by
  refine ⟨rfl, ?_, ?_⟩
  · intro e h
    obtain ⟨u, n, comp, ex⟩ := vs
    simp only at h
    subst h
    constructor
    · simp [FhirKit.ValueSet.extend, FhirKit.ValueSet.has_expanded,
        Bind.bind, Except.bind]
    · rfl
  · intro h b2
    obtain ⟨u, n, comp, ex⟩ := vs
    simp only at h
    subst h
    cases b2 <;> rfl

/-- C7 (witness): the amended theorem at a value set whose expansion holds
`cA` (all three flag combinations) and at a value set with no expansion
(flags `false`/`false`). -/
theorem FhirKit.extend_empty_fails_only_with_compose_witness :
    (({ expansion := some { contains := [FhirKit.cA] } } : FhirKit.ValueSet).expansion
        = some { contains := [FhirKit.cA] }
      ∧ ({} : FhirKit.ValueSet).expansion = none)
    ∧ FhirKit.ValueSet.extend { expansion := some { contains := [FhirKit.cA] } } [] true true
      = Except.error FhirKit.PyError.ValueError
    ∧ FhirKit.ValueSet.extend { expansion := some { contains := [FhirKit.cA] } } [] false false
      = Except.ok { expansion := some { contains := [FhirKit.cA] } }
    ∧ FhirKit.ValueSet.extend { expansion := some { contains := [FhirKit.cA] } } [] false true
      = Except.ok { expansion := some {} }
    ∧ FhirKit.ValueSet.extend ({} : FhirKit.ValueSet) [] false false
      = Except.error (FhirKit.PyError.AssertionError FhirKit.initAssertMsg) :=
  ⟨⟨rfl, rfl⟩,
   (FhirKit.extend_empty_fails_only_with_compose
     { expansion := some { contains := [FhirKit.cA] } } true).1,
   ((FhirKit.extend_empty_fails_only_with_compose
     { expansion := some { contains := [FhirKit.cA] } } true).2.1
     { contains := [FhirKit.cA] } rfl).1,
   ((FhirKit.extend_empty_fails_only_with_compose
     { expansion := some { contains := [FhirKit.cA] } } true).2.1
     { contains := [FhirKit.cA] } rfl).2,
   (FhirKit.extend_empty_fails_only_with_compose
     ({} : FhirKit.ValueSet) true).2.2 rfl false⟩

/-- C8: `__contains__` returns `False` for any item that is neither a
`Coding` nor a `CodeableConcept` — without calling `validate_code`, hence
without raising — and for accepted types returns exactly what the variant's
`validate_code` returns; in particular the enumerated variant's membership
test yields `False` on a type mismatch. -/
theorem FhirKit.contains_type_dispatch
    (validate : FhirKit.VSItem → Except FhirKit.PyError Bool)
    (c : FhirKit.Coding) (cc : FhirKit.CodeableConcept) (vs : FhirKit.ValueSet) :
    FhirKit.ValueSet.containsItem validate FhirKit.VSItem.other = Except.ok false
    ∧ FhirKit.ValueSet.containsItem validate (FhirKit.VSItem.coding c)
      = validate (FhirKit.VSItem.coding c)
    ∧ FhirKit.ValueSet.containsItem validate (FhirKit.VSItem.codeable cc)
      = validate (FhirKit.VSItem.codeable cc)
    ∧ FhirKit.SimpleValueSet.mem vs FhirKit.VSItem.other = Except.ok false :=
  ⟨rfl, rfl, rfl, rfl⟩

/-- C9: on a value set whose `compose` is absent, `append` and (non-empty)
`extend` with `extendComposition=true` fail with the `AttributeError` of
dereferencing `self.compose.include` on `None` — the missing composition is
never created — whatever the `initExpansionIfAbsent` flag and the state of
the expansion. -/
theorem FhirKit.append_extend_need_compose
    (vs : FhirKit.ValueSet) (c : FhirKit.VSCodingWithDesignation)
    (cs : List FhirKit.VSCodingWithDesignation) (b : Bool)
    (hc : vs.compose = none) (hcs : cs ≠ []) :
    FhirKit.ValueSet.append vs c true b = Except.error FhirKit.PyError.AttributeError
    ∧ FhirKit.ValueSet.extend vs cs true b = Except.error FhirKit.PyError.AttributeError := by
  obtain ⟨u, n, comp, ex⟩ := vs
  simp only at hc
  subst hc
  cases cs with
  | nil => exact absurd rfl hcs
  | cons a t => exact ⟨rfl, rfl⟩

/-- C9 (witness): the theorem applied to an expanded value set with no
composition, appending `cB` and extending with `[cB]`. -/
theorem FhirKit.append_extend_need_compose_witness :
    (({ expansion := some { contains := [FhirKit.cA] } } : FhirKit.ValueSet).compose = none
      ∧ ([FhirKit.cB] : List FhirKit.VSCodingWithDesignation) ≠ [])
    ∧ FhirKit.ValueSet.append { expansion := some { contains := [FhirKit.cA] } }
        FhirKit.cB true true = Except.error FhirKit.PyError.AttributeError
    ∧ FhirKit.ValueSet.extend { expansion := some { contains := [FhirKit.cA] } }
        [FhirKit.cB] true true = Except.error FhirKit.PyError.AttributeError :=
  ⟨⟨rfl, List.cons_ne_nil _ _⟩,
   FhirKit.append_extend_need_compose
     { expansion := some { contains := [FhirKit.cA] } } FhirKit.cB [FhirKit.cB] true
     rfl (List.cons_ne_nil _ _)⟩

/-- C10: `__len__` computes `expansion.total or len(expansion.contains)`, and
`0 or n` is `n` in Python: on an expanded value set whose `total` is present
but equal to `0`, `len()` returns the length of `contains`, not `0` — a
present zero `total` is treated exactly like an absent one. -/
theorem FhirKit.length_zero_total_falls_back
    (vs : FhirKit.ValueSet) (e : FhirKit.VSExpansion)
    (h1 : vs.expansion = some e) (h2 : e.total = some 0) :
    FhirKit.ValueSet.length vs = Except.ok (e.contains.length : Int) := by
  rw [FhirKit.ValueSet.length_eq, h1]
  simp [FhirKit.ValueSet.lenOfExpansion, h2]

/-- C10 (witness): the theorem applied at an expansion with `total = 0` and
one concept in `contains`; `len()` yields `1`. -/
theorem FhirKit.length_zero_total_falls_back_witness :
    (({ expansion := some { total := some 0, contains := [FhirKit.cA] } } : FhirKit.ValueSet).expansion
        = some { total := some 0, contains := [FhirKit.cA] }
      ∧ ({ total := some 0, contains := [FhirKit.cA] } : FhirKit.VSExpansion).total = some 0)
    ∧ FhirKit.ValueSet.length { expansion := some { total := some 0, contains := [FhirKit.cA] } }
      = Except.ok 1 :=
  ⟨⟨rfl, rfl⟩,
   FhirKit.length_zero_total_falls_back
     { expansion := some { total := some 0, contains := [FhirKit.cA] } }
     { total := some 0, contains := [FhirKit.cA] } rfl rfl⟩
